import Mathlib

/-!
Verification of `timid_github.py`, a Github integration extension for the
`timid` test runner.  The Python source is shallowly embedded: each Python
function that the claims touch becomes a Lean definition over explicit
data (subprocess results, filesystem probe outcomes, extension state), and
the claims are settled as theorems about those definitions.
-/

namespace TimidGithub

/-- A captured result of one subprocess execution: the bytes of stdout and
stderr (modelled as character lists) and the integer exit code.  Mirrors
the `(stdout, stderr, child.returncode)` triple in `_git`. -/
structure ExecResult where
  stdout : List Char
  stderr : List Char
  returncode : Int
  deriving Repr, DecidableEq

/-- `SSH_ERROR`, the literal marker from line 33 of the source:
`b'ssh_exchange_identification: Connection closed by remote host'`. -/
def sshError : List Char :=
  "ssh_exchange_identification: Connection closed by remote host".toList

/-- Whether `pre` is an initial segment of `l` (used to express the Python
`in` substring test on bytes). -/
def startsW : List Char → List Char → Bool
  | [], _ => true
  | _ :: _, [] => false
  | a :: as, b :: bs => a == b && startsW as bs

/-- Whether `needle` occurs contiguously inside `hay`: Python's
`needle in hay` on bytes objects. -/
def hasSub (needle : List Char) : List Char → Bool
  | [] => needle.isEmpty
  | c :: rest => startsW needle (c :: rest) || hasSub needle rest

/-- The retry condition of `_git` line 92:
`child.returncode and (SSH_ERROR in stdout or SSH_ERROR in stderr)`. -/
def sshRetry (r : ExecResult) : Bool :=
  (r.returncode != 0) && (hasSub sshError r.stdout || hasSub sshError r.stderr)

/-- The `while num_tries < ssh_retries` loop of `_git` (lines 76-96),
driven by the list of subprocess results the environment would produce.
`fuel` is the number of loop iterations still permitted
(`ssh_retries - num_tries`), `sleepTime` the current backoff delay.
Returns the list of sleep delays issued (each sleep precedes a retry, line
82), the number of subprocess invocations made, and the last `ExecResult`;
`none` when the supplied result list is too short for the attempts made,
or when `ssh_retries = 0` (the Python would then read unbound variables). -/
def gitAttempts : Nat → Nat → List ExecResult → Option (List Nat × Nat × ExecResult)
  | 0, _, _ => none
  | _ + 1, _, [] => none
  | fuel + 1, sleepTime, r :: rest =>
    if sshRetry r && (fuel != 0) then
      -- retryable failure with budget remaining: the next iteration sleeps
      -- `sleepTime` (line 82) and doubles the delay (line 83) before running
      match gitAttempts fuel (sleepTime * 2) rest with
      | none => none
      | some (sleeps, n, last) => some (sleepTime :: sleeps, n + 1, last)
    else
      -- either the `break` on line 96, or the `while` guard on line 78
      -- failing after a final retryable failure: `r` is the last result
      some ([], 1, r)

/-- `shlex_quote` as used on line 100 (Python `six.moves.shlex_quote`):
a string of safe characters is returned unchanged, anything else is
wrapped in single quotes with embedded single quotes escaped. -/
def safeChar (c : Char) : Bool :=
  c.isAlphanum || c = '_' || c = '@' || c = '%' || c = '+' || c = '=' ||
    c = ':' || c = ',' || c = '.' || c = '/' || c = '-'

/-- See `safeChar`; the single-quote character. -/
def squote : Char := Char.ofNat 39

/-- Shell quoting of one argument, per Python `shlex.quote`. -/
def shlexQuote (s : String) : String :=
  if s.isEmpty then String.mk [squote, squote]
  else if s.toList.all safeChar then s
  else
    String.mk ([squote] ++
      (s.toList.flatMap fun c =>
        if c = squote then [squote, '\x22', squote, '\x22', squote] else [c]) ++
      [squote])

/-- The exception message built on lines 100-102:
`'Git command "%s" returned %d' % (command, child.returncode)` where
`command` is the shell-quoted reconstructed command line. -/
def gitErrMsg (cmd : List String) (code : Int) : String :=
  "Git command \x22" ++ String.intercalate " " (cmd.map shlexQuote) ++
    "\x22 returned " ++ toString code

/-- `_git(ctxt, *args, ssh_retries=.., do_raise=..)` (lines 45-105).
`results` is the sequence of subprocess results the environment produces,
one per invocation.  Returns the sleeps issued, the number of
invocations, and either the raised `GitException` message
(`Except.error`) or the stdout returned (`Except.ok`). -/
def git (sshRetries : Nat) (doRaise : Bool) (args : List String)
    (results : List ExecResult) :
    Option (List Nat × Nat × Except String (List Char)) :=
  match gitAttempts sshRetries 1 results with
  | none => none
  | some (sleeps, n, last) =>
    if doRaise && last.returncode != 0 then
      some (sleeps, n, Except.error (gitErrMsg ("git" :: args) last.returncode))
    else
      some (sleeps, n, Except.ok last.stdout)

/-- Core loop lemma: with fuel `fails.length + 1` and every result in
`fails` triggering the SSH retry condition, the loop consumes all of
`fails` and then one more result `x`, stopping there (whether or not `x`
itself is retryable, the fuel is then spent), having slept
`s, 2s, 4s, ...` once per retry. -/
theorem gitAttempts_run (fails : List ExecResult) (x : ExecResult)
    (rest : List ExecResult) (s : Nat)
    (hfail : ∀ r ∈ fails, sshRetry r = true) :
    gitAttempts (fails.length + 1) s (fails ++ x :: rest) =
      some ((List.range fails.length).map fun i => s * 2 ^ i,
            fails.length + 1, x) := by
  induction fails generalizing s with
  | nil =>
    simp [gitAttempts]
  | cons f fs ih =>
    have hf : sshRetry f = true := hfail f (List.mem_cons_self f fs)
    have hfs : ∀ r ∈ fs, sshRetry r = true := fun r hr =>
      hfail r (List.mem_cons_of_mem f hr)
    have hrec := ih (s * 2) hfs
    have hfun : (fun i => s * 2 * 2 ^ i) = ((fun i => s * 2 ^ i) ∘ Nat.succ) := by
      funext i
      simp only [Function.comp_apply, pow_succ]
      ring
    have h1 : (fs.length + 1 != 0) = true := by simp
    simp only [List.cons_append, List.length_cons, gitAttempts, hf, h1, Bool.true_and,
      if_true, List.append_eq, hrec, List.range_succ_eq_map, List.map_cons, List.map_map, pow_zero,
      mul_one, hfun]

/-- A result whose exit code is non-zero and whose captured stdout or
stderr contains the SSH marker satisfies the retry condition of line 92. -/
theorem sshRetry_of_marker (r : ExecResult) (h1 : r.returncode ≠ 0)
    (h2 : hasSub sshError r.stdout = true ∨ hasSub sshError r.stderr = true) :
    sshRetry r = true := by
  rcases h2 with h2 | h2 <;> simp [sshRetry, h1, h2]

/-- C2: with `ssh_retries = R = fails.length + 1`, if the first `R - 1`
executions exit non-zero with the SSH marker in stdout or stderr and the
`R`-th exits zero, `_git` makes exactly `R` subprocess invocations, sleeps
`R - 1` times with successive delays `2^0, 2^1, ..., 2^(R-2)`, and returns
the stdout of the final successful execution. -/
theorem git_retries_then_success (fails : List ExecResult) (ok : ExecResult)
    (rest : List ExecResult) (doRaise : Bool) (args : List String)
    (hfail : ∀ r ∈ fails, r.returncode ≠ 0 ∧
      (hasSub sshError r.stdout = true ∨ hasSub sshError r.stderr = true))
    (hok : ok.returncode = 0) :
    git (fails.length + 1) doRaise args (fails ++ ok :: rest) =
      some ((List.range fails.length).map fun i => 2 ^ i,
            fails.length + 1, Except.ok ok.stdout) := by
  have hfail' : ∀ r ∈ fails, sshRetry r = true := fun r hr =>
    sshRetry_of_marker r (hfail r hr).1 (hfail r hr).2
  unfold git
  rw [gitAttempts_run fails ok rest 1 hfail']
  simp [hok]

/-- See `git_retries_then_success`: concrete instance of a retried
execution, one SSH failure then a success. -/
def wFail : ExecResult := ⟨sshError, [], 1⟩

/-- See `git_retries_then_success`: the successful final execution. -/
def wOk : ExecResult := ⟨"final success".toList, [], 0⟩

/-- Witness for `git_retries_then_success` at `R = 2`. -/
theorem git_retries_then_success_witness :
    (∀ r ∈ [wFail], r.returncode ≠ 0 ∧
      (hasSub sshError r.stdout = true ∨ hasSub sshError r.stderr = true)) ∧
    wOk.returncode = 0 ∧
    git 2 true ["fetch"] [wFail, wOk] = some ([1], 2, Except.ok wOk.stdout) :=
  ⟨by decide, rfl,
    git_retries_then_success [wFail] wOk [] true ["fetch"] (by decide) rfl⟩

/-- C3: with `ssh_retries = R = fails.length + 1`, if all `R` executions
exit non-zero with the SSH marker present and `do_raise` is true (the
default), `_git` raises a `GitException` after exactly `R` invocations and
`R - 1` sleeps of `2^0, ..., 2^(R-2)`, with the message carrying the
shell-quoted reconstructed command line and the final exit code. -/
theorem git_retries_exhausted (fails : List ExecResult) (lastR : ExecResult)
    (rest : List ExecResult) (args : List String)
    (hfail : ∀ r ∈ fails, r.returncode ≠ 0 ∧
      (hasSub sshError r.stdout = true ∨ hasSub sshError r.stderr = true))
    (hlast : lastR.returncode ≠ 0 ∧
      (hasSub sshError lastR.stdout = true ∨ hasSub sshError lastR.stderr = true)) :
    git (fails.length + 1) true args (fails ++ lastR :: rest) =
      some ((List.range fails.length).map fun i => 2 ^ i,
            fails.length + 1,
            Except.error (gitErrMsg ("git" :: args) lastR.returncode)) := by
  have hfail' : ∀ r ∈ fails, sshRetry r = true := fun r hr =>
    sshRetry_of_marker r (hfail r hr).1 (hfail r hr).2
  unfold git
  rw [gitAttempts_run fails lastR rest 1 hfail']
  simp [hlast.1]

/-- Witness for `git_retries_exhausted` at `R = 2`. -/
theorem git_retries_exhausted_witness :
    (∀ r ∈ [wFail], r.returncode ≠ 0 ∧
      (hasSub sshError r.stdout = true ∨ hasSub sshError r.stderr = true)) ∧
    (wFail.returncode ≠ 0 ∧
      (hasSub sshError wFail.stdout = true ∨ hasSub sshError wFail.stderr = true)) ∧
    git 2 true ["fetch"] [wFail, wFail] =
      some ([1], 2, Except.error (gitErrMsg ["git", "fetch"] 1)) :=
  ⟨by decide, by decide,
    git_retries_exhausted [wFail] wFail [] ["fetch"] (by decide) (by decide)⟩

/-- C9: with `do_raise = False`, whenever the loop completes (producing a
last execution result), no exception is raised even if that last execution
exited non-zero: `_git` returns its captured stdout. -/
theorem git_noraise_returns_stdout (sshRetries : Nat) (args : List String)
    (results : List ExecResult) (sleeps : List Nat) (n : Nat)
    (lastR : ExecResult)
    (h : gitAttempts sshRetries 1 results = some (sleeps, n, lastR))
    (hcode : lastR.returncode ≠ 0) :
    git sshRetries false args results =
      some (sleeps, n, Except.ok lastR.stdout) := by
  unfold git
  rw [h]
  simp

/-- Witness for `git_noraise_returns_stdout`: one failing execution. -/
theorem git_noraise_returns_stdout_witness :
    gitAttempts 1 1 [wFail] = some ([], 1, wFail) ∧
    wFail.returncode ≠ 0 ∧
    git 1 false ["status"] [wFail] = some ([], 1, Except.ok wFail.stdout) :=
  ⟨by decide, by decide,
    git_noraise_returns_stdout 1 ["status"] [wFail] [] 1 wFail (by decide)
      (by decide)⟩

/-- A pull-request status report: the `{status, text, url}` triple handled
by `_set_status` (lines 658-681). -/
structure Status where
  status : String
  text : Option String
  url : Option String
  deriving Repr, DecidableEq

/-- The slice of a `timid.steps.Step` the extension reads: its display
name (`step.name`). -/
structure Step where
  name : String
  deriving Repr, DecidableEq

/-- The state carried by a `timid.StepResult`: the recognized `timid`
state constants plus any unrecognized value (with its string form, as
interpolated by `'%s' % result.state` on line 755). -/
inductive TState where
  | success
  | failure
  | error
  | skipped
  | other (s : String)
  deriving Repr, DecidableEq

/-- String form of a state, used only in the unknown-state message. -/
def TState.str : TState → String
  | .success => "SUCCESS"
  | .failure => "FAILURE"
  | .error => "ERROR"
  | .skipped => "SKIPPED"
  | .other s => s

/-- A `timid.StepResult` as read by `post_step`: its state and optional
message. -/
structure StepResult where
  state : TState
  msg : Option String
  deriving Repr, DecidableEq

/-- Modelled from the spec: the truthiness of the external
`timid.StepResult` object tested by `if not result:` on line 744 — the
class is not under src/, and the spec (section 4.5 and its section 9 note)
says the outcome is "ok" exactly when it signals success or skipped, which
matches the repository's own tests. -/
def StepResult.ok (r : StepResult) : Bool :=
  r.state == .success || r.state == .skipped

/-- Python falsiness of an optional message (`if not msg:` on lines 749
and 753): `None` or the empty string. -/
def falsyMsg : Option String → Bool
  | none => true
  | some s => s.isEmpty

/-- The mutable state of a `GithubExtension` instance as the status
machine sees it: the configured status URL (`self.status_url`), the final
status descriptor (`self.final_status`), the last reported status
(`self.last_status`, `None` at construction, line 656), plus the trace of
statuses transmitted to the pull request's last commit. -/
structure GHState where
  statusUrl : Option String
  finalStatus : Status
  lastStatus : Option Status
  reports : List Status
  deriving Repr, DecidableEq

/-- `_set_status` (lines 658-681): transmit the status to the last commit
(`create_status`, appended to the `reports` trace), then record the
`{status, text, url}` triple as `self.last_status`. -/
def setStatus (st : GHState) (status : String) (text url : Option String) :
    GHState :=
  { st with
    reports := st.reports ++ [⟨status, text, url⟩],
    lastStatus := some ⟨status, text, url⟩ }

/-- `_set_status` with an explicitly fallible transmission: when
`create_status` (line 670) raises, the exception propagates before the
assignment on line 677 runs, so the state — in particular `last_status` —
is returned unchanged in the error. -/
def setStatusT (transmitOk : Bool) (st : GHState) (status : String)
    (text url : Option String) : Except GHState GHState :=
  if transmitOk then Except.ok (setStatus st status text url)
  else Except.error st

/-- `pre_step` (lines 711-728): always report `pending` with the step name
and the configured status URL, and return `None`. -/
def preStep (st : GHState) (step : Step) (idx : Nat) :
    GHState × Option Bool :=
  (setStatus st "pending" (some step.name) st.statusUrl, none)

/-- `post_step` (lines 730-761): report only when the outcome is falsy;
state FAILURE maps to a `failure` report, everything else to `error`, with
the outcome's own message when non-falsy and a computed one otherwise. -/
def postStep (st : GHState) (step : Step) (idx : Nat)
    (result : StepResult) : GHState :=
  if !result.ok then
    if result.state == .failure then
      setStatus st "failure"
        (if falsyMsg result.msg then some ("Failed: " ++ step.name)
         else result.msg)
        st.statusUrl
    else
      setStatus st "error"
        (if falsyMsg result.msg then
          (if result.state != .error then
            some ("Unknown timid state \x22" ++ result.state.str ++
              "\x22 during step: " ++ step.name)
           else some ("Error: " ++ step.name))
         else result.msg)
        st.statusUrl
  else st

/-- The `result` argument of `finalize`: `None`, an `Exception` instance
(with its string form), or any other value (with its string form, as
interpolated on line 790). -/
inductive FinalResult where
  | noneV
  | exc (s : String)
  | value (s : String)
  deriving Repr, DecidableEq

/-- `finalize` (lines 763-793): on `None` report the final status
descriptor; on an exception report `error`; on any other value report
`failure` only when the last reported status is `pending`.  Returns
`result` unchanged. -/
def finalize (st : GHState) (result : FinalResult) : GHState × FinalResult :=
  match result with
  | .noneV =>
    (setStatus st st.finalStatus.status st.finalStatus.text
      st.finalStatus.url, result)
  | .exc s =>
    (setStatus st "error" (some ("Exception while running timid: " ++ s))
      st.statusUrl, result)
  | .value v =>
    (match st.lastStatus with
     | some ls =>
       if ls.status = "pending" then
         setStatus st "failure" (some ("Testing failed: " ++ v)) st.statusUrl
       else st
     | none => st,
     result)

/-- A parsed `--github-override` JSON document: which of the three keys of
`final_status` it carries, with their values (lines 573-580 copy any of
the keys `status`, `text`, `url` present in the document). -/
structure OverrideDoc where
  status : Option String
  text : Option String
  url : Option String
  deriving Repr, DecidableEq

/-- Lines 566-588 of `activate`: build the final status descriptor from
the defaults `{status: "success", text: "Tests passed!", url:
args.github_status_url}`, then apply the deprecated combined override
document (when given and parsed), then the three discrete override
options; a discrete option applies when given and non-empty (Python
truthiness of the argument string). -/
def buildFinalStatus (ghStatusUrl : Option String)
    (combined : Option OverrideDoc) (oStatus oText oUrl : Option String) :
    Status :=
  let fs : Status := ⟨"success", some "Tests passed!", ghStatusUrl⟩
  let fs : Status :=
    match combined with
    | none => fs
    | some d =>
      ⟨d.status.getD fs.status,
       match d.text with | none => fs.text | some t => some t,
       match d.url with | none => fs.url | some u => some u⟩
  let fs : Status :=
    match oStatus with
    | some s => if s.isEmpty then fs else { fs with status := s }
    | none => fs
  let fs : Status :=
    match oText with
    | some t => if t.isEmpty then fs else { fs with text := some t }
    | none => fs
  match oUrl with
  | some u => if u.isEmpty then fs else { fs with url := some u }
  | none => fs

/-- The state of a freshly activated extension: `last_status = None` and
no report yet transmitted. -/
def initState (statusUrl : Option String) (fs : Status) : GHState :=
  ⟨statusUrl, fs, none, []⟩

/-- The callback sequence of claim C1: pre-step A, post-step A with
outcome `resA`, pre-step B, post-step B with outcome `resB`, then
`finalize` with `result`. -/
def runScenario (statusUrl : Option String) (fs : Status)
    (stepA stepB : Step) (resA resB : StepResult) (result : FinalResult) :
    GHState × FinalResult :=
  let st1 := (preStep (initState statusUrl fs) stepA 0).1
  let st2 := postStep st1 stepA 0 resA
  let st3 := (preStep st2 stepB 1).1
  let st4 := postStep st3 stepB 1 resB
  finalize st4 result

/-- C10: `pre_step` returns `None` (a false value) for every state, step
and index, so the extension never requests that a step be skipped. -/
theorem preStep_never_skips (st : GHState) (step : Step) (idx : Nat) :
    (preStep st step idx).2 = none := rfl

/-- C6: for every prior history (any extension state), `finalize` with
result `None` emits exactly one report, the preconfigured final status
descriptor, and no other report. -/
theorem finalize_none_reports_final (st : GHState) :
    (finalize st .noneV).1.reports = st.reports ++ [st.finalStatus] := by
  simp [finalize, setStatus]

/-- C5: if the only callback before finalize is a single pre-step for
`step`, then `finalize` with a plain (non-None, non-exception) result `v`
emits exactly two reports: pending with the step name, then failure with
message "Testing failed: {v}", because the last reported status is still
pending. -/
theorem finalize_after_lone_prestep (statusUrl : Option String)
    (fs : Status) (step : Step) (idx : Nat) (v : String) :
    (finalize (preStep (initState statusUrl fs) step idx).1 (.value v)).1.reports =
      [⟨"pending", some step.name, statusUrl⟩,
       ⟨"failure", some ("Testing failed: " ++ v), statusUrl⟩] := by
  simp [finalize, preStep, initState, setStatus]

/-- C1, counterexample to the claim as stated: the scenario [pre-step A,
post-step A ok, pre-step B, post-step B failure "oops", finalize "done"]
does not emit exactly the two reports pending/A then failure/"oops" — the
unconditional pre-step B report pending/B is also emitted. -/
theorem scenario_counterexample :
    (runScenario (some "u") ⟨"success", some "Tests passed!", some "u"⟩
        ⟨"A"⟩ ⟨"B"⟩ ⟨.success, none⟩ ⟨.failure, some "oops"⟩
        (.value "done")).1.reports ≠
      [⟨"pending", some "A", some "u"⟩,
       ⟨"failure", some "oops", some "u"⟩] := by
  decide

/-- C1 (amended): the scenario [pre-step A, post-step A with an ok
outcome, pre-step B, post-step B with a failure outcome whose message is
"oops", finalize with a plain non-None, non-exception result] emits
exactly the reports pending/A, pending/B, failure/"oops"; in particular
finalize emits no additional report, because the last reported status at
finalize time is "failure", not "pending". -/
theorem scenario_amended (statusUrl : Option String) (fs : Status)
    (stepA stepB : Step) (resA : StepResult) (v : String)
    (hA : resA.ok = true) :
    (runScenario statusUrl fs stepA stepB resA ⟨.failure, some "oops"⟩
        (.value v)).1.reports =
      [⟨"pending", some stepA.name, statusUrl⟩,
       ⟨"pending", some stepB.name, statusUrl⟩,
       ⟨"failure", some "oops", statusUrl⟩] ∧
    (runScenario statusUrl fs stepA stepB resA ⟨.failure, some "oops"⟩
        (.value v)).1.reports =
      (postStep (preStep (postStep (preStep (initState statusUrl fs)
          stepA 0).1 stepA 0 resA) stepB 1).1 stepB 1
        ⟨.failure, some "oops"⟩).reports := by
  constructor <;>
    simp +decide [runScenario, preStep, postStep, finalize, initState,
      setStatus, hA, falsyMsg]

/-- Witness for `scenario_amended` with a success outcome for step A. -/
theorem scenario_amended_witness :
    (StepResult.ok ⟨.success, none⟩ = true) ∧
    ((runScenario (some "u") ⟨"success", some "Tests passed!", some "u"⟩
        ⟨"A"⟩ ⟨"B"⟩ ⟨.success, none⟩ ⟨.failure, some "oops"⟩
        (.value "done")).1.reports =
      [⟨"pending", some "A", some "u"⟩,
       ⟨"pending", some "B", some "u"⟩,
       ⟨"failure", some "oops", some "u"⟩] ∧
    (runScenario (some "u") ⟨"success", some "Tests passed!", some "u"⟩
        ⟨"A"⟩ ⟨"B"⟩ ⟨.success, none⟩ ⟨.failure, some "oops"⟩
        (.value "done")).1.reports =
      (postStep (preStep (postStep (preStep
          (initState (some "u") ⟨"success", some "Tests passed!", some "u"⟩)
          ⟨"A"⟩ 0).1 ⟨"A"⟩ 0 ⟨.success, none⟩) ⟨"B"⟩ 1).1 ⟨"B"⟩ 1
        ⟨.failure, some "oops"⟩).reports) :=
  ⟨rfl, scenario_amended (some "u") ⟨"success", some "Tests passed!", some "u"⟩
    ⟨"A"⟩ ⟨"B"⟩ ⟨.success, none⟩ "done" rfl⟩

/-- The invariant of claim C8: the extension's `last_status` field equals
the most recently transmitted status, when any. -/
def lastMirrors (st : GHState) : Prop :=
  st.lastStatus = st.reports.getLast?

/-- Report operations re-establish the mirror invariant. -/
theorem lastMirrors_setStatus (st : GHState) (s : String)
    (t u : Option String) : lastMirrors (setStatus st s t u) := by
  simp [lastMirrors, setStatus]

/-- C8: every report operation — from `pre_step`, `post_step` or
`finalize` — leaves `last_status` equal to the most recently transmitted
status triple, and the field is updated only after the transmission call:
when the transmission raises, the state (and thus `last_status`) is
propagated unchanged. -/
theorem lastStatus_mirrors_reports (st : GHState) (step : Step) (idx : Nat)
    (res : StepResult) (result : FinalResult) (s : String)
    (t u : Option String) (h : lastMirrors st) :
    lastMirrors (preStep st step idx).1 ∧
    lastMirrors (postStep st step idx res) ∧
    lastMirrors (finalize st result).1 ∧
    setStatusT false st s t u = Except.error st := by
  refine ⟨lastMirrors_setStatus st "pending" (some step.name) st.statusUrl,
    ?_, ?_, rfl⟩
  · unfold postStep
    split
    · split
      · exact lastMirrors_setStatus st _ _ _
      · exact lastMirrors_setStatus st _ _ _
    · exact h
  · unfold finalize
    cases result with
    | noneV => exact lastMirrors_setStatus st _ _ _
    | exc e => exact lastMirrors_setStatus st _ _ _
    | value v =>
      simp only
      split
      · split
        · exact lastMirrors_setStatus st _ _ _
        · exact h
      · exact h

/-- Witness for `lastStatus_mirrors_reports` at a concrete state. -/
theorem lastStatus_mirrors_reports_witness :
    lastMirrors (initState (some "u") ⟨"success", none, none⟩) ∧
    (lastMirrors (preStep (initState (some "u") ⟨"success", none, none⟩)
        ⟨"A"⟩ 0).1 ∧
     lastMirrors (postStep (initState (some "u") ⟨"success", none, none⟩)
        ⟨"A"⟩ 0 ⟨.failure, none⟩) ∧
     lastMirrors (finalize (initState (some "u") ⟨"success", none, none⟩)
        .noneV).1 ∧
     setStatusT false (initState (some "u") ⟨"success", none, none⟩)
        "pending" none none =
       Except.error (initState (some "u") ⟨"success", none, none⟩)) :=
  ⟨rfl,
    lastStatus_mirrors_reports (initState (some "u") ⟨"success", none, none⟩)
      ⟨"A"⟩ 0 ⟨.failure, none⟩ .noneV "pending" none none rfl⟩

/-- C7: with the combined override document
`{status: "override", text: "t", url: "u"}` and a discrete override
status of "status2" (no discrete text or url), the final status
descriptor has status "status2" (discrete wins), text "t" and url "u"
(both from the combined document). -/
theorem buildFinalStatus_precedence (ghStatusUrl : Option String) :
    buildFinalStatus ghStatusUrl (some ⟨some "override", some "t", some "u"⟩)
        (some "status2") none none =
      ⟨"status2", some "t", some "u"⟩ := rfl

/-- The two working directories relevant to `CloneAction.__call__`: the
environment working directory `work_dir` and the repository directory
`repo_dir = os.path.join(work_dir, self.ghe.repo_name)` (lines 156-157). -/
inductive Dir where
  | work
  | repo
  deriving Repr, DecidableEq

/-- The outcome of the `os.lstat(repo_dir)` probe on line 159 (lstat does
not follow symlinks), refined by the checks on lines 169 and 176. -/
inductive PathProbe where
  | missing
  | probeError
  | file
  | dirRepo
  | dirPlain
  deriving Repr, DecidableEq

/-- Externally visible operations performed by `CloneAction.__call__` and
`CloneAction._clone`, in execution order. -/
inductive CloneEvent where
  | removeFile
  | rmtree
  | setCwd (d : Dir)
  | gitClone
  | updateCall
  deriving Repr, DecidableEq

/-- Result of the clone-or-update action: the trace of operations, the
final working directory, and whether the action returned a success
`StepResult` (`true`) or let an exception propagate (`false`). -/
structure CloneOutcome where
  events : List CloneEvent
  cwd : Dir
  success : Bool
  deriving Repr, DecidableEq

/-- `CloneAction._clone` (lines 191-218): run `git clone` with
`ssh_retries=5`, then change into the target directory and run
`_update`; when the update raises, restore the prior working directory
and re-raise.  `cloneOk` abstracts whether the `git clone` command
succeeds, `updOk` whether the subsequent `_update` does; the working
directory is `work` at entry at every call site. -/
def cloneStep (cloneOk updOk : Bool) : CloneOutcome :=
  if !cloneOk then ⟨[.gitClone], .work, false⟩
  else if updOk then ⟨[.gitClone, .setCwd .repo, .updateCall], .repo, true⟩
  else ⟨[.gitClone, .setCwd .repo, .updateCall, .setCwd .work], .work, false⟩

/-- `CloneAction.__call__` (lines 145-189), as a function of the probe
outcome of the target path, whether an in-place `_update` would succeed
(`updInPlaceOk`), and the two `_clone` outcomes. -/
def cloneCall (probe : PathProbe) (updInPlaceOk cloneOk updOk : Bool) :
    CloneOutcome :=
  match probe with
  | .missing => cloneStep cloneOk updOk
  | .probeError => ⟨[], .work, false⟩
  | .file =>
    let c := cloneStep cloneOk updOk
    ⟨.removeFile :: c.events, c.cwd, c.success⟩
  | .dirPlain =>
    let c := cloneStep cloneOk updOk
    ⟨.rmtree :: c.events, c.cwd, c.success⟩
  | .dirRepo =>
    if updInPlaceOk then ⟨[.setCwd .repo, .updateCall], .repo, true⟩
    else
      let c := cloneStep cloneOk updOk
      ⟨[.setCwd .repo, .updateCall, .setCwd .work, .rmtree] ++ c.events,
        c.cwd, c.success⟩

/-- C4: the clone-or-update action takes exactly the specified branch for
every probe outcome: absent path → the clone path, with no file delete
and no directory-tree removal; present as a non-directory → delete the
file, then clone; a directory without the `.git` metadata subdirectory →
remove the tree, then clone; a directory with `.git` → update in place
(on success the working directory is the repository directory), and on
update failure the working directory is restored, the tree removed, and
a fresh clone performed. -/
theorem cloneCall_branches : ∀ updInPlaceOk cloneOk updOk : Bool,
    (cloneCall .missing updInPlaceOk cloneOk updOk = cloneStep cloneOk updOk ∧
      CloneEvent.removeFile ∉ (cloneStep cloneOk updOk).events ∧
      CloneEvent.rmtree ∉ (cloneStep cloneOk updOk).events ∧
      (cloneStep cloneOk updOk).events.head? = some .gitClone) ∧
    (cloneCall .file updInPlaceOk cloneOk updOk).events =
      .removeFile :: (cloneStep cloneOk updOk).events ∧
    (cloneCall .dirPlain updInPlaceOk cloneOk updOk).events =
      .rmtree :: (cloneStep cloneOk updOk).events ∧
    cloneCall .dirRepo true cloneOk updOk =
      ⟨[.setCwd .repo, .updateCall], .repo, true⟩ ∧
    (cloneCall .dirRepo false cloneOk updOk).events =
      [.setCwd .repo, .updateCall, .setCwd .work, .rmtree] ++
        (cloneStep cloneOk updOk).events := by
  decide

end TimidGithub
